import Mathlib

/-!
Verification of the status-propagation core of the pubsub shout server
(appengine-python-flask: main.py, rotoken.py).

The Python source is embedded shallowly:
  - the datastore entity ShoutStatusLog becomes a Lean structure; a store is
    a list of such entities in storage order;
  - the single datastore query of the poll loop (filter on combined_shout_id,
    descending order on the status string, fetch 1) becomes fetchTop;
  - the poll loop poll_shout_status becomes a fuel-indexed recursion over a
    sequence of store snapshots (one per iteration, modelling concurrent
    writes), with wall-clock time measured in deciseconds as the sum of the
    sleeps performed (sleep times are exact multiples of 0.1 s in the source);
  - the worker callback post_shout_status becomes a function from its inputs
    to the HTTP code and the updated store;
  - the rotating token manager Rotoken becomes functions on token lists.
-/

namespace Shout

/-- The tuple STATUSES of main.py: status strings whose one-letter code ranks
them by priority so that a descending sort surfaces the highest priority. -/
def STATUSES : List String :=
  ["a-new", "b-shouting", "c-error", "d-fatal", "e-success"]

/-- Characters strictly after the first dash, or none when no dash occurs
(where the Python expression split at dash, index 1, would raise IndexError). -/
def afterDash : List Char → Option (List Char)
  | [] => none
  | c :: cs => if c = '-' then some cs else afterDash cs

/-- Characters up to (excluding) the next dash: the rest of the second
segment of the Python split at dash. -/
def untilDash : List Char → List Char
  | [] => []
  | c :: cs => if c = '-' then [] else c :: untilDash cs

/-- The second segment of the Python split of s at dash, index 1; empty
when there is no dash (where Python would raise IndexError). -/
def nameOfEncoded (st : String) : String :=
  match afterDash st.data with
  | none => ""
  | some rest => ⟨untilDash rest⟩

/-- The dict STATUS_MAP of main.py: maps a status name to its encoded form,
built by splitting each member of STATUSES at the dash. -/
def STATUS_MAP (name : String) : Option String :=
  STATUSES.find? (fun st => nameOfEncoded st == name)

/-- Default length for random ids (RANDOM_ID_LEN in main.py). -/
def RANDOM_ID_LEN : Nat := 43

/-- ID_CHARS of main.py: string.ascii_letters + string.digits. -/
def ID_CHARS : List Char :=
  ("abcdefghijklmnopqrstuvwxyzABCDEFGHIJKLMNOPQRSTUVWXYZ0123456789").data

/-- new_random_id of main.py. The secure random source rand.choice is
modelled by a function giving, for each position, the index of the chosen
member of ID_CHARS (reduced mod the alphabet size). -/
def new_random_id (rand : Nat → Nat) (id_len : Nat) : String :=
  ⟨(List.range id_len).map (fun i => ID_CHARS.getD (rand i % ID_CHARS.length) 'a')⟩

/-- combine_ids of main.py. -/
def combine_ids (browser_id shout_id : String) : String :=
  browser_id ++ "-" ++ shout_id

/-- The datastore entity ShoutStatusLog of main.py. Timestamps are naturals
(auto_now_add insertion times); optional fields are None-able. -/
structure ShoutStatusLog where
  combined_shout_id : String
  status : String
  timestamp : Nat
  error : Option String
  result : Option String
  host : Option String
deriving DecidableEq

/-- The status_name property of ShoutStatusLog: strips the one-letter code
(the segment after the first dash when the status is non-empty, else the empty string). -/
def ShoutStatusLog.status_name (e : ShoutStatusLog) : String :=
  if e.status = "" then "" else nameOfEncoded e.status

/-- An entity the ndb model would accept: its status is one of STATUSES
(the choices constraint of the status property). -/
def ShoutStatusLog.valid (e : ShoutStatusLog) : Prop :=
  e.status ∈ STATUSES

instance (e : ShoutStatusLog) : Decidable e.valid := by
  unfold ShoutStatusLog.valid; infer_instance

/-- Lexicographic code-point order on strings, the order Python uses to
compare the status strings; stated on the underlying character lists. -/
def strLt (a b : String) : Prop :=
  a.data < b.data

instance (a b : String) : Decidable (strLt a b) := by
  unfold strLt; infer_instance

/-- The datastore read of the poll loop: filter on combined_shout_id equal to the
key, order descending on the status string, fetch 1. Among entities tied on
the maximal status string the query does not order by timestamp (the source
orders by status only); the model returns the first such entity in storage
order. -/
def fetchTop (store : List ShoutStatusLog) (key : String) : Option ShoutStatusLog :=
  (store.filter (fun e => e.combined_shout_id == key)).foldl
    (fun acc e =>
      match acc with
      | none => some e
      | some b => if strLt b.status e.status then some e else some b)
    none

/-- The JSON response assembled by poll_shout_status in main.py, together
with the HTTP status code. The nextLink field holds the continuation token
fields (browserId, shoutId, status) when present. -/
structure PollResponse where
  shoutId : String
  status : String
  result : Option String
  error : Option String
  nextLink : Option (String × String × String)
  code : Nat
deriving DecidableEq

/-- The response built after the while loop breaks in poll_shout_status:
the current response fields plus a nextLink continuation, HTTP 202. -/
def breakResponse (browser_id shout_id cur : String) (err : Option String) :
    PollResponse :=
  { shoutId := shout_id, status := cur, result := none, error := err,
    nextLink := some (browser_id, shout_id, cur), code := 202 }

/-- The sleep durations of the poll loop, in deciseconds: sleep_seconds
starts at 0.1 s and each iteration is updated to min(5, 2 * sleep_seconds),
exactly as in the source recurrence. sIter i is the duration slept at the
end of iteration i. -/
def sIter : Nat → Nat
  | 0 => 1
  | i + 1 => min 50 (2 * sIter i)

/-- Wall-clock deciseconds elapsed when the time check of iteration i runs:
the sum of the sleeps of iterations 0..i-1 (datastore reads are modelled as
instantaneous). -/
def sumElapsed (i : Nat) : Nat :=
  ((List.range i).map sIter).sum

/-- The while loop of poll_shout_status. stores gives the datastore snapshot
read at each iteration (modelling concurrent writes); the loop carries the
iteration index, the elapsed deciseconds, the pending sleep duration, the
current response status field, and the list of sleeps performed so far.
Fuel bounds the recursion; the fuel given by the entry point is
never exhausted (the loop provably breaks by iteration 14), so the
fuel-zero branch is unreachable from poll_shout_status. -/
def pollAux (stores : Nat → List ShoutStatusLog)
    (browser_id shout_id last_status : String) :
    Nat → Nat → Nat → Nat → String → List Nat → PollResponse × List Nat
  | 0, _, _, _, cur, sleeps =>
      (breakResponse browser_id shout_id cur none, sleeps)
  | fuel + 1, i, elapsed, sleep_ds, cur, sleeps =>
      match fetchTop (stores i) (combine_ids browser_id shout_id) with
      | some e =>
          if e.status_name = "success" then
            ({ shoutId := shout_id, status := e.status_name, result := e.result,
               error := none, nextLink := none, code := 200 }, sleeps)
          else if e.status_name = "fatal" then
            ({ shoutId := shout_id, status := e.status_name, result := none,
               error := e.error, nextLink := none, code := 200 }, sleeps)
          else if last_status ≠ e.status_name then
            (breakResponse browser_id shout_id e.status_name e.error, sleeps)
          else if 450 ≤ elapsed then
            (breakResponse browser_id shout_id e.status_name none, sleeps)
          else
            pollAux stores browser_id shout_id last_status fuel (i + 1)
              (elapsed + sleep_ds) (min 50 (2 * sleep_ds)) e.status_name
              (sleeps ++ [sleep_ds])
      | none =>
          if 450 ≤ elapsed then
            (breakResponse browser_id shout_id cur none, sleeps)
          else
            pollAux stores browser_id shout_id last_status fuel (i + 1)
              (elapsed + sleep_ds) (min 50 (2 * sleep_ds)) cur
              (sleeps ++ [sleep_ds])

/-- Fuel for the poll loop: the loop provably breaks by iteration 14
(elapsed reaches 46.3 s there), so 20 iterations are never exhausted. -/
def POLL_FUEL : Nat := 20

/-- poll_shout_status of main.py: response starts as last_status,
sleep_seconds starts at 0.1 s, elapsed time at 0. Returns the response and
the list of sleeps performed (in deciseconds). -/
def poll_shout_status (stores : Nat → List ShoutStatusLog)
    (browser_id shout_id last_status : String) : PollResponse × List Nat :=
  pollAux stores browser_id shout_id last_status POLL_FUEL 0 0 1 last_status []

/-- The entity written by post_shout_status on acceptance: the result
payload of the worker lands in the error field for error/fatal statuses and in the
result field otherwise, exactly as the if/else of the source. -/
def postEvent (browser_id shout_id status_code status_name : String)
    (result_param host_param : Option String) (now : Nat) : ShoutStatusLog :=
  { combined_shout_id := combine_ids browser_id shout_id,
    status := status_code,
    timestamp := now,
    error := if status_name = "error" ∨ status_name = "fatal"
             then result_param else none,
    result := if status_name = "error" ∨ status_name = "fatal"
              then none else result_param,
    host := host_param }

/-- post_shout_status of main.py: abort 403 unless the presented token is
in the token list of the purse; otherwise append one entity and return 200
(a missing status name raises KeyError, modelled as 500). Returns the HTTP
code and the datastore contents after the call. -/
def post_shout_status (tokens : List String) (store : List ShoutStatusLog)
    (browser_id shout_id status_name : String)
    (result_param host_param token_param : Option String) (now : Nat) :
    Nat × List ShoutStatusLog :=
  match token_param with
  | none => (403, store)
  | some t =>
      if t ∈ tokens then
        match STATUS_MAP status_name with
        | some st =>
            (200, store ++ [postEvent browser_id shout_id st status_name
                             result_param host_param now])
        | none => (500, store)
      else (403, store)

/-- The entity written by the shout submission handler of main.py: status
is STATUS_MAP of new, error and result unset. -/
def shoutEvent (browser_id shout_id host : String) (now : Nat) :
    ShoutStatusLog :=
  { combined_shout_id := combine_ids browser_id shout_id,
    status := (STATUS_MAP "new").getD "",
    timestamp := now,
    error := none,
    result := none,
    host := some host }

namespace Rotoken

/-- Default max_tokens of Rotoken.__init__. -/
def MAX_TOKENS : Nat := 3

/-- Rotoken.init: creates the record with a one-element list if absent,
otherwise rewrites the existing record unchanged. -/
def init (record : Option (List String)) (first_token : String) :
    List String :=
  match record with
  | none => [first_token]
  | some ts => ts

/-- Rotoken.rotate_token: insert the new token at the front, delete
everything from index max_tokens on. -/
def rotate_token (max_tokens : Nat) (tokens : List String) (token : String) :
    List String :=
  (token :: tokens).take max_tokens

end Rotoken

/-- The ordered status enumeration of the spec, with its priority ordinal.
This is the spec-side model for the refinement claim relating it to the
encoded prefix strings of STATUSES. -/
inductive SpecStatus
  | NEW
  | SHOUTING
  | ERROR
  | FATAL
  | SUCCESS
deriving DecidableEq, Fintype

/-- Priority ordinal of the spec-side enumeration. -/
def SpecStatus.priority : SpecStatus → Nat
  | .NEW => 0
  | .SHOUTING => 1
  | .ERROR => 2
  | .FATAL => 3
  | .SUCCESS => 4

/-- The encoded string the source uses for each spec-side status. -/
def SpecStatus.encode : SpecStatus → String
  | .NEW => "a-new"
  | .SHOUTING => "b-shouting"
  | .ERROR => "c-error"
  | .FATAL => "d-fatal"
  | .SUCCESS => "e-success"

/-! Helper lemmas about fetchTop. -/

/-- The fold step of fetchTop. -/
def fetchStep (acc : Option ShoutStatusLog) (e : ShoutStatusLog) :
    Option ShoutStatusLog :=
  match acc with
  | none => some e
  | some b => if strLt b.status e.status then some e else some b

lemma fetchTop_eq_fold (store : List ShoutStatusLog) (key : String) :
    fetchTop store key =
      (store.filter (fun e => e.combined_shout_id == key)).foldl fetchStep none := by
  rfl

lemma fetchStep_go (l : List ShoutStatusLog) :
    ∀ b : ShoutStatusLog, ∃ e, l.foldl fetchStep (some b) = some e ∧
      (e = b ∨ e ∈ l) ∧ b.status.data ≤ e.status.data ∧
      ∀ x ∈ l, x.status.data ≤ e.status.data := by
  induction l with
  | nil =>
      intro b
      exact ⟨b, rfl, Or.inl rfl, le_refl _, by simp⟩
  | cons c l ih =>
      intro b
      by_cases h : strLt b.status c.status
      · obtain ⟨e, he, hmem, hce, hall⟩ := ih c
        refine ⟨e, ?_, ?_, ?_, ?_⟩
        · simpa [List.foldl_cons, fetchStep, h] using he
        · rcases hmem with rfl | hmem
          · exact Or.inr (List.mem_cons_self _ _)
          · exact Or.inr (List.mem_cons_of_mem _ hmem)
        · exact le_trans (le_of_lt h) hce
        · intro x hx
          rcases List.mem_cons.mp hx with rfl | hx
          · exact hce
          · exact hall x hx
      · obtain ⟨e, he, hmem, hbe, hall⟩ := ih b
        refine ⟨e, ?_, ?_, hbe, ?_⟩
        · simpa [List.foldl_cons, fetchStep, h] using he
        · rcases hmem with rfl | hmem
          · exact Or.inl rfl
          · exact Or.inr (List.mem_cons_of_mem _ hmem)
        · intro x hx
          rcases List.mem_cons.mp hx with rfl | hx
          · exact le_trans (not_lt.mp h) hbe
          · exact hall x hx

lemma fetchTop_eq_none_iff (store : List ShoutStatusLog) (key : String) :
    fetchTop store key = none ↔
      store.filter (fun e => e.combined_shout_id == key) = [] := by
  rw [fetchTop_eq_fold]
  rcases hf : store.filter (fun e => e.combined_shout_id == key) with _ | ⟨c, rest⟩
  · rw [hf]; simp
  · rw [hf]
    obtain ⟨e, he, -, -, -⟩ := fetchStep_go rest c
    simp only [List.foldl_cons, fetchStep]
    rw [he]
    simp

lemma fetchTop_mem_max (store : List ShoutStatusLog) (key : String)
    (e : ShoutStatusLog) (h : fetchTop store key = some e) :
    e ∈ store ∧ e.combined_shout_id = key ∧
      ∀ x ∈ store, x.combined_shout_id = key → x.status.data ≤ e.status.data := by
  rw [fetchTop_eq_fold] at h
  rcases hf : store.filter (fun x => x.combined_shout_id == key) with _ | ⟨c, rest⟩
  · rw [hf] at h; simp at h
  · rw [hf] at h
    obtain ⟨e0, he0, hmem, hce, hall⟩ := fetchStep_go rest c
    simp only [List.foldl_cons, fetchStep] at h
    rw [he0] at h
    obtain rfl : e0 = e := by injection h
    have hememf : e0 ∈ store.filter (fun x => x.combined_shout_id == key) := by
      rw [hf]
      rcases hmem with rfl | hmem
      · exact List.mem_cons_self _ _
      · exact List.mem_cons_of_mem _ hmem
    have hmf := List.mem_filter.mp hememf
    refine ⟨hmf.1, by simpa using hmf.2, ?_⟩
    intro x hx hxk
    have hxf : x ∈ store.filter (fun y => y.combined_shout_id == key) :=
      List.mem_filter.mpr ⟨hx, by simpa using hxk⟩
    rw [hf] at hxf
    rcases List.mem_cons.mp hxf with rfl | hxf
    · exact hce
    · exact hall x hxf

lemma fetchTop_isSome_of_mem (store : List ShoutStatusLog) (key : String)
    (e0 : ShoutStatusLog) (h0 : e0 ∈ store) (hk : e0.combined_shout_id = key) :
    ∃ e, fetchTop store key = some e := by
  rcases he : fetchTop store key with _ | e
  · exfalso
    have hf := (fetchTop_eq_none_iff store key).mp he
    have : e0 ∈ store.filter (fun x => x.combined_shout_id == key) :=
      List.mem_filter.mpr ⟨h0, by simpa using hk⟩
    rw [hf] at this
    simp at this
  · exact ⟨e, rfl⟩

/-! Claim C1. -/

/-- First event used by the C1 counterexample: a c-error event with the
smaller timestamp. -/
def eEarly : ShoutStatusLog :=
  ⟨"B-7", "c-error", 0, some "early", none, none⟩

/-- Second event used by the C1 counterexample: a c-error event with the
larger timestamp. -/
def eLate : ShoutStatusLog :=
  ⟨"B-7", "c-error", 1, some "late", none, none⟩

/-- C1 counterexample: with two events of equal status priority for the same
key, the latest-status lookup returns whichever comes first in storage
order, not the event with the maximum (status_priority, timestamp) pair,
and the returned event depends on the order of insertion. -/
theorem fetchTop_ignores_timestamp_counterexample :
    fetchTop [eEarly, eLate] "B-7" = some eEarly ∧
    fetchTop [eLate, eEarly] "B-7" = some eLate ∧
    eEarly.status = eLate.status ∧
    eEarly.timestamp < eLate.timestamp ∧
    eEarly ≠ eLate := by
  decide

/-- C1 (amended): the latest-status lookup returns none exactly when no
event exists for the key; otherwise it returns an event for the key whose
status priority (encoded-string order) is maximal among the events of that
key, and the status of the returned event is independent of insertion
order; ties of maximal priority are broken by storage order, not by
timestamp. -/
theorem fetchTop_latest_amended (store : List ShoutStatusLog) (key : String) :
    (fetchTop store key = none ↔ ∀ e ∈ store, e.combined_shout_id ≠ key) ∧
    (∀ e, fetchTop store key = some e →
      e ∈ store ∧ e.combined_shout_id = key ∧
      ∀ x ∈ store, x.combined_shout_id = key →
        x.status.data ≤ e.status.data) ∧
    (∀ store2, List.Perm store store2 →
      (fetchTop store key).map ShoutStatusLog.status =
        (fetchTop store2 key).map ShoutStatusLog.status) := by
  refine ⟨?_, ?_, ?_⟩
  · rw [fetchTop_eq_none_iff, List.filter_eq_nil_iff]
    constructor
    · intro h e he hk
      exact absurd (by simpa using hk) (by simpa using h e he)
    · intro h e he
      simpa using h e he
  · intro e he
    exact fetchTop_mem_max store key e he
  · intro store2 hperm
    rcases h1 : fetchTop store key with _ | e1 <;>
      rcases h2 : fetchTop store2 key with _ | e2
    · rfl
    · exfalso
      obtain ⟨hmem2, hk2, -⟩ := fetchTop_mem_max store2 key e2 h2
      obtain ⟨e, he⟩ := fetchTop_isSome_of_mem store key e2
        (hperm.mem_iff.mpr hmem2) hk2
      rw [he] at h1; exact Option.noConfusion h1
    · exfalso
      obtain ⟨hmem1, hk1, -⟩ := fetchTop_mem_max store key e1 h1
      obtain ⟨e, he⟩ := fetchTop_isSome_of_mem store2 key e1
        (hperm.mem_iff.mp hmem1) hk1
      rw [he] at h2; exact Option.noConfusion h2
    · obtain ⟨hmem1, hk1, hmax1⟩ := fetchTop_mem_max store key e1 h1
      obtain ⟨hmem2, hk2, hmax2⟩ := fetchTop_mem_max store2 key e2 h2
      have h12 : e1.status.data ≤ e2.status.data :=
        hmax2 e1 (hperm.mem_iff.mp hmem1) hk1
      have h21 : e2.status.data ≤ e1.status.data :=
        hmax1 e2 (hperm.mem_iff.mpr hmem2) hk2
      have : e1.status = e2.status := String.ext (le_antisymm h12 h21)
      simp [this]

/-- Witness for the amended C1 theorem at a concrete store. -/
theorem fetchTop_latest_amended_witness :
    eEarly ∈ [eEarly, eLate] ∧ eEarly.combined_shout_id = "B-7" ∧
    ∀ x ∈ [eEarly, eLate], x.combined_shout_id = "B-7" →
      x.status.data ≤ eEarly.status.data :=
  (fetchTop_latest_amended [eEarly, eLate] "B-7").2.1 eEarly (by decide)

/-! Helper lemmas about the poll loop. -/

lemma range_map_snoc {α : Type} (f : Nat → α) (i : Nat) :
    (List.range (i + 1)).map f = (List.range i).map f ++ [f i] := by
  rw [List.range_succ, List.map_append]; rfl

lemma sIter_eq (i : Nat) : sIter i = min 50 (2 ^ i) := by
  induction i with
  | zero => rfl
  | succ i ih =>
      show min 50 (2 * sIter i) = min 50 (2 ^ (i + 1))
      rw [ih, pow_succ]
      omega

lemma sumElapsed_succ (i : Nat) :
    sumElapsed (i + 1) = sumElapsed i + sIter i := by
  simp [sumElapsed, range_map_snoc]

lemma sumElapsed_le_413 (i : Nat) (h : i ≤ 13) : sumElapsed i ≤ 413 := by
  have mono : ∀ d j, sumElapsed j ≤ sumElapsed (j + d) := by
    intro d
    induction d with
    | zero => intro j; exact le_refl _
    | succ d ihd =>
        intro j
        calc sumElapsed j ≤ sumElapsed (j + d) := ihd j
          _ ≤ sumElapsed (j + d + 1) := by rw [sumElapsed_succ]; omega
  have h13 : sumElapsed 13 = 413 := by decide
  have hm := mono (13 - i) i
  rw [show i + (13 - i) = 13 by omega, h13] at hm
  exact hm

lemma sumElapsed_14 : 450 ≤ sumElapsed 14 := by decide

lemma status_name_of_error (e : ShoutStatusLog) (h : e.status = "c-error") :
    e.status_name = "error" := by
  unfold ShoutStatusLog.status_name
  rw [h]
  decide

lemma status_name_of_fatal (e : ShoutStatusLog) (h : e.status = "d-fatal") :
    e.status_name = "fatal" := by
  unfold ShoutStatusLog.status_name
  rw [h]
  decide

lemma status_name_of_success (e : ShoutStatusLog) (h : e.status = "e-success") :
    e.status_name = "success" := by
  unfold ShoutStatusLog.status_name
  rw [h]
  decide

lemma pollAux_sleeps (stores : Nat → List ShoutStatusLog) (b s l : String) :
    ∀ fuel i elapsed cur, ∃ k,
      (pollAux stores b s l fuel i elapsed (sIter i) cur
        ((List.range i).map sIter)).2 = (List.range k).map sIter := by
  intro fuel
  induction fuel with
  | zero => intro i elapsed cur; exact ⟨i, rfl⟩
  | succ fuel ih =>
      intro i elapsed cur
      rcases hF : fetchTop (stores i) (combine_ids b s) with _ | e
      · simp only [pollAux, hF]
        by_cases ht : 450 ≤ elapsed
        · rw [if_pos ht]; exact ⟨i, rfl⟩
        · rw [if_neg ht, ← range_map_snoc]
          exact ih (i + 1) (elapsed + sIter i) cur
      · simp only [pollAux, hF]
        by_cases hsucc : e.status_name = "success"
        · rw [if_pos hsucc]; exact ⟨i, rfl⟩
        · rw [if_neg hsucc]
          by_cases hfat : e.status_name = "fatal"
          · rw [if_pos hfat]; exact ⟨i, rfl⟩
          · rw [if_neg hfat]
            by_cases hch : l ≠ e.status_name
            · rw [if_pos hch]; exact ⟨i, rfl⟩
            · rw [if_neg hch]
              by_cases ht : 450 ≤ elapsed
              · rw [if_pos ht]; exact ⟨i, rfl⟩
              · rw [if_neg ht, ← range_map_snoc]
                exact ih (i + 1) (elapsed + sIter i) e.status_name

lemma pollAux_timeout (stores : Nat → List ShoutStatusLog) (b s l : String)
    (h1 : l ≠ "success") (h2 : l ≠ "fatal")
    (hst : ∀ i e, fetchTop (stores i) (combine_ids b s) = some e →
      e.status_name = l) :
    ∀ fuel i, 15 ≤ fuel + i → i ≤ 14 →
      pollAux stores b s l fuel i (sumElapsed i) (sIter i) l
          ((List.range i).map sIter)
        = (breakResponse b s l none, (List.range 14).map sIter) := by
  intro fuel
  induction fuel with
  | zero => intro i hfi hi; omega
  | succ fuel ih =>
      intro i hfi hi
      have key14 : 450 ≤ sumElapsed i → i = 14 := by
        intro h450
        by_contra hne
        have hle : i ≤ 13 := by omega
        have := sumElapsed_le_413 i hle
        omega
      have notyet : ¬ 450 ≤ sumElapsed i → i + 1 ≤ 14 := by
        intro hlt
        rcases Nat.lt_or_ge i 14 with hlt14 | hge14
        · omega
        · exfalso
          have : i = 14 := by omega
          subst this
          exact hlt sumElapsed_14
      rcases hF : fetchTop (stores i) (combine_ids b s) with _ | e
      · simp only [pollAux, hF]
        by_cases ht : 450 ≤ sumElapsed i
        · rw [if_pos ht, key14 ht]
        · rw [if_neg ht, ← range_map_snoc, ← sumElapsed_succ]
          exact ih (i + 1) (by omega) (notyet ht)
      · have hname := hst i e hF
        simp only [pollAux, hF]
        rw [if_neg (show ¬ e.status_name = "success" by rw [hname]; exact h1),
            if_neg (show ¬ e.status_name = "fatal" by rw [hname]; exact h2),
            if_neg (show ¬ l ≠ e.status_name by rw [hname]; exact fun h => h rfl),
            hname]
        by_cases ht : 450 ≤ sumElapsed i
        · rw [if_pos ht, key14 ht]
        · rw [if_neg ht, ← range_map_snoc, ← sumElapsed_succ]
          exact ih (i + 1) (by omega) (notyet ht)

/-- The field-presence discipline every poll response obeys: the code is 200
or 202; a continuation is present exactly on 202; a result is only present
on a terminal success response; an error message is only present on a
terminal fatal response or on a surfaced interim error response, the latter
carrying a continuation as well. -/
def goodResp (r : PollResponse) : Prop :=
  (r.code = 200 ∨ r.code = 202) ∧
  (r.nextLink.isSome ↔ r.code = 202) ∧
  (r.result.isSome →
    r.status = "success" ∧ r.code = 200 ∧ r.error = none ∧ r.nextLink = none) ∧
  (r.error.isSome →
    (r.status = "fatal" ∧ r.code = 200 ∧ r.result = none ∧ r.nextLink = none) ∨
    (r.status = "error" ∧ r.code = 202 ∧ r.result = none ∧ r.nextLink.isSome))

lemma goodResp_break_none (b s cur : String) :
    goodResp (breakResponse b s cur none) := by
  refine ⟨Or.inr rfl, by simp [breakResponse], ?_, ?_⟩
  · intro h; simp [breakResponse] at h
  · intro h; simp [breakResponse] at h

lemma pollAux_good (stores : Nat → List ShoutStatusLog) (b s l : String)
    (hWF : ∀ i e, e ∈ stores i → e.error.isSome →
      e.status = "c-error" ∨ e.status = "d-fatal") :
    ∀ fuel i elapsed sds cur sleeps,
      goodResp (pollAux stores b s l fuel i elapsed sds cur sleeps).1 := by
  intro fuel
  induction fuel with
  | zero => intro i elapsed sds cur sleeps; exact goodResp_break_none b s cur
  | succ fuel ih =>
      intro i elapsed sds cur sleeps
      rcases hF : fetchTop (stores i) (combine_ids b s) with _ | e
      · simp only [pollAux, hF]
        by_cases ht : 450 ≤ elapsed
        · rw [if_pos ht]; exact goodResp_break_none b s cur
        · rw [if_neg ht]; exact ih (i + 1) (elapsed + sds) (min 50 (2 * sds))
            cur (sleeps ++ [sds])
      · simp only [pollAux, hF]
        by_cases hsucc : e.status_name = "success"
        · rw [if_pos hsucc]
          exact ⟨Or.inl rfl, by simp, fun _ => ⟨hsucc, rfl, rfl, rfl⟩, by simp⟩
        · rw [if_neg hsucc]
          by_cases hfat : e.status_name = "fatal"
          · rw [if_pos hfat]
            exact ⟨Or.inl rfl, by simp, by simp,
              fun _ => Or.inl ⟨hfat, rfl, rfl, rfl⟩⟩
          · rw [if_neg hfat]
            by_cases hch : l ≠ e.status_name
            · rw [if_pos hch]
              refine ⟨Or.inr rfl, by simp [breakResponse], ?_, ?_⟩
              · intro h; simp [breakResponse] at h
              · intro h
                right
                have hmem := (fetchTop_mem_max (stores i) _ e hF).1
                have herr : e.error.isSome := by
                  simpa [breakResponse] using h
                rcases hWF i e hmem herr with hce | hdf
                · exact ⟨status_name_of_error e hce, rfl, rfl, by simp [breakResponse]⟩
                · exact absurd (status_name_of_fatal e hdf) hfat
            · rw [if_neg hch]
              by_cases ht : 450 ≤ elapsed
              · rw [if_pos ht]; exact goodResp_break_none b s e.status_name
              · rw [if_neg ht]
                exact ih (i + 1) (elapsed + sds) (min 50 (2 * sds))
                  e.status_name (sleeps ++ [sds])

lemma status_terminal_of_ge_dfatal (st : String) (hmem : st ∈ STATUSES)
    (hge : ("d-fatal" : String).data ≤ st.data) :
    st = "d-fatal" ∨ st = "e-success" := by
  fin_cases hmem
  · exact absurd hge (by decide)
  · exact absurd hge (by decide)
  · exact absurd hge (by decide)
  · exact Or.inl rfl
  · exact Or.inr rfl

/-! Claim C2. -/

/-- C2: if a SUCCESS or FATAL event for the job exists in the snapshot read
by the first iteration, the poll loop returns at once (performing no sleep)
with the terminal status and its payload (result for success, error for
fatal) and no continuation link, for every last_known_status. -/
theorem poll_terminal_immediate (stores : Nat → List ShoutStatusLog)
    (b s l : String) (e0 : ShoutStatusLog)
    (h0 : e0 ∈ stores 0) (hk : e0.combined_shout_id = combine_ids b s)
    (hterm : e0.status = "d-fatal" ∨ e0.status = "e-success")
    (hvalid : ∀ x ∈ stores 0, x.combined_shout_id = combine_ids b s →
      x.status ∈ STATUSES) :
    ∃ e, fetchTop (stores 0) (combine_ids b s) = some e ∧ e ∈ stores 0 ∧
      ((e.status = "e-success" ∧
        poll_shout_status stores b s l =
          ({ shoutId := s, status := "success", result := e.result,
             error := none, nextLink := none, code := 200 }, [])) ∨
       (e.status = "d-fatal" ∧
        poll_shout_status stores b s l =
          ({ shoutId := s, status := "fatal", result := none,
             error := e.error, nextLink := none, code := 200 }, []))) := by
  obtain ⟨e, hfetch⟩ := fetchTop_isSome_of_mem (stores 0) _ e0 h0 hk
  obtain ⟨hmem, hkey, hmax⟩ := fetchTop_mem_max (stores 0) _ e hfetch
  have hge : ("d-fatal" : String).data ≤ e.status.data := by
    rcases hterm with h | h
    · have := hmax e0 h0 hk; rw [h] at this; exact this
    · have := hmax e0 h0 hk
      rw [h] at this
      exact le_trans (by decide) this
  have hterm2 := status_terminal_of_ge_dfatal e.status (hvalid e hmem hkey) hge
  refine ⟨e, hfetch, hmem, ?_⟩
  have hPF : POLL_FUEL = 19 + 1 := rfl
  rcases hterm2 with hdf | hes
  · right
    refine ⟨hdf, ?_⟩
    have hname := status_name_of_fatal e hdf
    unfold poll_shout_status
    rw [hPF]
    simp only [pollAux, hfetch]
    rw [if_neg (show ¬ e.status_name = "success" by rw [hname]; decide),
        if_pos hname, hname]
  · left
    refine ⟨hes, ?_⟩
    have hname := status_name_of_success e hes
    unfold poll_shout_status
    rw [hPF]
    simp only [pollAux, hfetch]
    rw [if_pos hname, hname]

/-- The success event used to instantiate the C2 theorem. -/
def eSucc : ShoutStatusLog :=
  ⟨"B-7", "e-success", 3, none, some "HELLO", none⟩

/-- Witness for the C2 theorem on a concrete one-event store. -/
theorem poll_terminal_immediate_witness :
    ∃ e, fetchTop [eSucc] (combine_ids "B" "7") = some e ∧ e ∈ [eSucc] ∧
      ((e.status = "e-success" ∧
        poll_shout_status (fun _ => [eSucc]) "B" "7" "shouting" =
          ({ shoutId := "7", status := "success", result := e.result,
             error := none, nextLink := none, code := 200 }, [])) ∨
       (e.status = "d-fatal" ∧
        poll_shout_status (fun _ => [eSucc]) "B" "7" "shouting" =
          ({ shoutId := "7", status := "fatal", result := none,
             error := e.error, nextLink := none, code := 200 }, []))) :=
  poll_terminal_immediate (fun _ => [eSucc]) "B" "7" "shouting" eSucc
    (by decide) (by decide) (Or.inr (by decide)) (by decide)

/-! Claim C3. -/

lemma map_sIter (k : Nat) :
    (List.range k).map sIter = (List.range k).map (fun j => min 50 (2 ^ j)) := by
  induction k with
  | zero => rfl
  | succ k ih => rw [range_map_snoc, range_map_snoc, ih, sIter_eq]

/-- C3: the sleep of iteration i of the poll loop is min(5 s, 0.1 * 2 ^ i s)
(stated in deciseconds): every run sleeps a prefix of that sequence; and if
the wall clock passes 45 s with no terminal event and no status change the
loop stops retrying and returns the last-known status with a continuation
token (having slept 14 times, 46.3 s in total). -/
theorem poll_backoff_and_timeout :
    (∀ i, sIter i = min 50 (2 ^ i)) ∧
    (∀ stores b s l, ∃ k,
      (poll_shout_status stores b s l).2 =
        (List.range k).map (fun j => min 50 (2 ^ j))) ∧
    (∀ stores b s l, l ≠ "success" → l ≠ "fatal" →
      (∀ i e, fetchTop (stores i) (combine_ids b s) = some e →
        e.status_name = l) →
      poll_shout_status stores b s l =
        (breakResponse b s l none,
          (List.range 14).map (fun j => min 50 (2 ^ j))) ∧
      450 ≤ ((poll_shout_status stores b s l).2).sum) := by
  refine ⟨sIter_eq, ?_, ?_⟩
  · intro stores b s l
    obtain ⟨k, hk⟩ := pollAux_sleeps stores b s l POLL_FUEL 0 0 l
    exact ⟨k, by rw [show (poll_shout_status stores b s l).2 =
      (List.range k).map sIter from hk, map_sIter]⟩
  · intro stores b s l h1 h2 hst
    have hrun := pollAux_timeout stores b s l h1 h2 hst POLL_FUEL 0
      (by decide) (by decide)
    constructor
    · rw [show poll_shout_status stores b s l =
        (breakResponse b s l none, (List.range 14).map sIter) from hrun,
        map_sIter]
    · rw [show (poll_shout_status stores b s l).2 =
        (List.range 14).map sIter from congrArg Prod.snd hrun]
      exact sumElapsed_14

/-- Witness for the C3 theorem: polling an always-empty store times out
after the full backoff schedule. -/
theorem poll_backoff_and_timeout_witness :
    poll_shout_status (fun _ => []) "B" "7" "new" =
      (breakResponse "B" "7" "new" none,
        (List.range 14).map (fun j => min 50 (2 ^ j))) ∧
    450 ≤ ((poll_shout_status (fun _ => []) "B" "7" "new").2).sum :=
  poll_backoff_and_timeout.2.2 (fun _ => []) "B" "7" "new" (by decide)
    (by decide) (fun i e h => by simp [fetchTop] at h)

/-! Claim C4. -/

/-- The interim-error event used by the C4 and C7 concrete instances. -/
def eBoom : ShoutStatusLog :=
  ⟨"B-7", "c-error", 0, some "boom", none, none⟩

/-- C4 counterexample: when the latest status changes to the non-terminal
ERROR status, the poll response carries both an error message and a
continuation link at once (with code 202), so exactly one of
result, error, continuation being present fails. -/
theorem poll_exactly_one_field_counterexample :
    ((poll_shout_status (fun _ => [eBoom]) "B" "7" "new").1.error).isSome = true ∧
    ((poll_shout_status (fun _ => [eBoom]) "B" "7" "new").1.nextLink).isSome = true ∧
    (poll_shout_status (fun _ => [eBoom]) "B" "7" "new").1.result = none ∧
    (poll_shout_status (fun _ => [eBoom]) "B" "7" "new").1.code = 202 ∧
    (poll_shout_status (fun _ => [eBoom]) "B" "7" "new").1.status = "error" := by
  decide

/-- C4 (amended): provided every logged event carries an error message only
with status c-error or d-fatal, each poll response has code 200 or 202, a
continuation exactly on 202, a result only on a terminal success response
(then with no error and no continuation), and an error message only on a
terminal fatal response or on a surfaced interim error response; the interim
error response carries a continuation alongside the error message. -/
theorem poll_response_fields_amended (stores : Nat → List ShoutStatusLog)
    (b s l : String)
    (hWF : ∀ i e, e ∈ stores i → e.error.isSome →
      e.status = "c-error" ∨ e.status = "d-fatal") :
    goodResp (poll_shout_status stores b s l).1 :=
  pollAux_good stores b s l hWF POLL_FUEL 0 0 1 l []

/-- Witness for the amended C4 theorem on a concrete one-event store. -/
theorem poll_response_fields_amended_witness :
    goodResp (poll_shout_status (fun _ => [eBoom]) "B" "7" "new").1 :=
  poll_response_fields_amended (fun _ => [eBoom]) "B" "7" "new"
    (fun i e he herr => by
      simp only [List.mem_singleton] at he
      subst he
      exact Or.inl rfl)

/-! Claim C5. -/

/-- C5: the worker callback responds 403 exactly when the presented token is
not a member of the current token list (any member suffices, not only the
newest); a rejected call leaves the log unchanged; an accepted call with a
known status name appends exactly the event described by the worker and
returns 200 (an accepted call with an unknown status name fails with 500
and also leaves the log unchanged). -/
theorem post_status_auth (tokens : List String) (store : List ShoutStatusLog)
    (b s name : String) (rp hp tp : Option String) (now : Nat) :
    ((post_shout_status tokens store b s name rp hp tp now).1 = 403 ↔
      ¬ ∃ t, tp = some t ∧ t ∈ tokens) ∧
    ((¬ ∃ t, tp = some t ∧ t ∈ tokens) →
      post_shout_status tokens store b s name rp hp tp now = (403, store)) ∧
    (∀ t, tp = some t → t ∈ tokens → ∀ st, STATUS_MAP name = some st →
      post_shout_status tokens store b s name rp hp tp now =
        (200, store ++ [postEvent b s st name rp hp now])) ∧
    (∀ t, tp = some t → t ∈ tokens → STATUS_MAP name = none →
      post_shout_status tokens store b s name rp hp tp now = (500, store)) := by
  rcases tp with _ | t
  · refine ⟨?_, fun _ => rfl, ?_, ?_⟩
    · simp [post_shout_status]
    · intro t h; exact absurd h (by simp)
    · intro t h; exact absurd h (by simp)
  · by_cases hmem : t ∈ tokens
    · rcases hsm : STATUS_MAP name with _ | st
      · have hpost : post_shout_status tokens store b s name rp hp (some t) now
            = (500, store) := by
          simp [post_shout_status, hmem, hsm]
        refine ⟨?_, ?_, ?_, ?_⟩
        · rw [hpost]
          exact iff_of_false (by simp) (fun hn => hn ⟨t, rfl, hmem⟩)
        · intro hn; exact absurd ⟨t, rfl, hmem⟩ hn
        · intro t2 ht2 hm2 st hst
          exact Option.noConfusion hst
        · intro t2 ht2 hm2 _; exact hpost
      · have hpost : post_shout_status tokens store b s name rp hp (some t) now
            = (200, store ++ [postEvent b s st name rp hp now]) := by
          simp [post_shout_status, hmem, hsm]
        refine ⟨?_, ?_, ?_, ?_⟩
        · rw [hpost]
          exact iff_of_false (by simp) (fun hn => hn ⟨t, rfl, hmem⟩)
        · intro hn; exact absurd ⟨t, rfl, hmem⟩ hn
        · intro t2 ht2 hm2 st2 hst2
          injection hst2 with h
          subst h
          exact hpost
        · intro t2 ht2 hm2 hnone
          exact Option.noConfusion hnone
    · have hpost : post_shout_status tokens store b s name rp hp (some t) now
          = (403, store) := by
        simp [post_shout_status, hmem]
      refine ⟨?_, fun _ => hpost, ?_, ?_⟩
      · rw [hpost]
        refine iff_of_true rfl ?_
        rintro ⟨t2, ht2, hm2⟩
        injection ht2 with h
        subst h
        exact hmem hm2
      · intro t2 ht2 hm2 st hst
        injection ht2 with h
        subst h
        exact absurd hm2 hmem
      · intro t2 ht2 hm2 _
        injection ht2 with h
        subst h
        exact absurd hm2 hmem

/-- Witness for the C5 theorem: an older (non-newest) token is accepted and
appends exactly the described event. -/
theorem post_status_auth_witness :
    post_shout_status ["t1", "t0"] [] "B" "7" "shouting" (some "x") none
        (some "t0") 5 =
      (200, [] ++ [postEvent "B" "7" "b-shouting" "shouting" (some "x") none 5]) :=
  (post_status_auth ["t1", "t0"] [] "B" "7" "shouting" (some "x") none
      (some "t0") 5).2.2.1 "t0" rfl (by decide) "b-shouting" (by decide)

/-! Claim C6. -/

/-- C6: rotate_token prepends the new token (newest first) and truncates to
max_tokens entries; starting from a store initialized with one token, after
one rotation the prior token is still present, and after max_tokens (3)
rotations with fresh tokens the original token is gone. -/
theorem rotate_token_props (t0 t1 t2 t3 : String)
    (h1 : t1 ≠ t0) (h2 : t2 ≠ t0) (h3 : t3 ≠ t0) :
    (∀ ts t, (Rotoken.rotate_token Rotoken.MAX_TOKENS ts t).head? = some t) ∧
    (∀ ts t, (Rotoken.rotate_token Rotoken.MAX_TOKENS ts t).length ≤
      Rotoken.MAX_TOKENS) ∧
    Rotoken.rotate_token Rotoken.MAX_TOKENS (Rotoken.init none t0) t1
      = [t1, t0] ∧
    t0 ∈ Rotoken.rotate_token Rotoken.MAX_TOKENS (Rotoken.init none t0) t1 ∧
    Rotoken.rotate_token Rotoken.MAX_TOKENS
        (Rotoken.rotate_token Rotoken.MAX_TOKENS
          (Rotoken.rotate_token Rotoken.MAX_TOKENS (Rotoken.init none t0) t1)
          t2) t3
      = [t3, t2, t1] ∧
    t0 ∉ Rotoken.rotate_token Rotoken.MAX_TOKENS
        (Rotoken.rotate_token Rotoken.MAX_TOKENS
          (Rotoken.rotate_token Rotoken.MAX_TOKENS (Rotoken.init none t0) t1)
          t2) t3 := by
  refine ⟨fun ts t => rfl, fun ts t => ?_, rfl,
    by simp [Rotoken.rotate_token, Rotoken.init, Rotoken.MAX_TOKENS], rfl, ?_⟩
  · exact List.length_take_le _ _
  · intro hmem
    rcases (by simpa [Rotoken.rotate_token, Rotoken.init, Rotoken.MAX_TOKENS]
        using hmem : t0 = t3 ∨ t0 = t2 ∨ t0 = t1) with h | h | h
    · exact h3 h.symm
    · exact h2 h.symm
    · exact h1 h.symm

/-- Witness for the C6 theorem at concrete distinct tokens. -/
theorem rotate_token_props_witness :
    (∀ ts t, (Rotoken.rotate_token Rotoken.MAX_TOKENS ts t).head? = some t) ∧
    (∀ ts t, (Rotoken.rotate_token Rotoken.MAX_TOKENS ts t).length ≤
      Rotoken.MAX_TOKENS) ∧
    Rotoken.rotate_token Rotoken.MAX_TOKENS (Rotoken.init none "a") "b"
      = ["b", "a"] ∧
    "a" ∈ Rotoken.rotate_token Rotoken.MAX_TOKENS (Rotoken.init none "a") "b" ∧
    Rotoken.rotate_token Rotoken.MAX_TOKENS
        (Rotoken.rotate_token Rotoken.MAX_TOKENS
          (Rotoken.rotate_token Rotoken.MAX_TOKENS (Rotoken.init none "a") "b")
          "c") "d"
      = ["d", "c", "b"] ∧
    "a" ∉ Rotoken.rotate_token Rotoken.MAX_TOKENS
        (Rotoken.rotate_token Rotoken.MAX_TOKENS
          (Rotoken.rotate_token Rotoken.MAX_TOKENS (Rotoken.init none "a") "b")
          "c") "d" :=
  rotate_token_props "a" "b" "c" "d" (by decide) (by decide) (by decide)

/-! Claim C7. -/

/-- C7 counterexample: a worker callback posting status shouting together
with a result payload is accepted and writes an event whose result field is
populated although its status is not e-success. -/
theorem event_fields_counterexample :
    (post_shout_status ["t0"] [] "B" "7" "shouting" (some "x") none
        (some "t0") 0).2 =
      [⟨"B-7", "b-shouting", 0, none, some "x", none⟩] ∧
    (⟨"B-7", "b-shouting", 0, none, some "x", none⟩ :
        ShoutStatusLog).result.isSome = true ∧
    (⟨"B-7", "b-shouting", 0, none, some "x", none⟩ :
        ShoutStatusLog).status ≠ "e-success" := by
  decide

lemma STATUS_MAP_some (name st : String) (h : STATUS_MAP name = some st) :
    st ∈ STATUSES ∧ nameOfEncoded st = name := by
  unfold STATUS_MAP at h
  exact ⟨List.mem_of_find?_eq_some h, by simpa using List.find?_some h⟩

lemma postEvent_error (b s stc name : String) (rp hp : Option String)
    (now : Nat) :
    (postEvent b s stc name rp hp now).error =
      if name = "error" ∨ name = "fatal" then rp else none := rfl

lemma postEvent_result (b s stc name : String) (rp hp : Option String)
    (now : Nat) :
    (postEvent b s stc name rp hp now).result =
      if name = "error" ∨ name = "fatal" then none else rp := rfl

lemma postEvent_status (b s stc name : String) (rp hp : Option String)
    (now : Nat) :
    (postEvent b s stc name rp hp now).status = stc := rfl

/-- C7 (amended): for every event written by the submission handler or by
the worker callback, the error field is populated only when the status is
c-error or d-fatal, and the result field is never populated when the status
is c-error or d-fatal; the submission handler populates neither field. The
result field equals the worker-supplied payload for every other status, so
result-populated-only-for-success holds exactly when workers supply a
result payload only together with the success status. -/
theorem event_fields_amended (b s host name : String) (rp hp : Option String)
    (now : Nat) (st : String) (hmap : STATUS_MAP name = some st) :
    (shoutEvent b s host now).error = none ∧
    (shoutEvent b s host now).result = none ∧
    (shoutEvent b s host now).status = "a-new" ∧
    ((postEvent b s st name rp hp now).error.isSome →
      (postEvent b s st name rp hp now).status = "c-error" ∨
      (postEvent b s st name rp hp now).status = "d-fatal") ∧
    ((postEvent b s st name rp hp now).status = "c-error" ∨
      (postEvent b s st name rp hp now).status = "d-fatal" →
      (postEvent b s st name rp hp now).result = none) ∧
    ((name ≠ "success" → rp = none) →
      (postEvent b s st name rp hp now).result.isSome →
      (postEvent b s st name rp hp now).status = "e-success") := by
  obtain ⟨hmem, hname⟩ := STATUS_MAP_some name st hmap
  fin_cases hmem
  · have hnl : name = "new" := by rw [← hname]; decide
    subst hnl
    refine ⟨rfl, rfl, rfl, ?_, ?_, ?_⟩
    · intro h
      rw [postEvent_error, if_neg (by decide)] at h
      simp at h
    · rintro (h | h) <;> (rw [postEvent_status] at h; exact absurd h (by decide))
    · intro hrp h
      exfalso
      rw [postEvent_result, if_neg (by decide), hrp (by decide)] at h
      simp at h
  · have hnl : name = "shouting" := by rw [← hname]; decide
    subst hnl
    refine ⟨rfl, rfl, rfl, ?_, ?_, ?_⟩
    · intro h
      rw [postEvent_error, if_neg (by decide)] at h
      simp at h
    · rintro (h | h) <;> (rw [postEvent_status] at h; exact absurd h (by decide))
    · intro hrp h
      exfalso
      rw [postEvent_result, if_neg (by decide), hrp (by decide)] at h
      simp at h
  · have hnl : name = "error" := by rw [← hname]; decide
    subst hnl
    refine ⟨rfl, rfl, rfl, fun _ => Or.inl rfl, ?_, ?_⟩
    · intro _
      rw [postEvent_result]
      exact if_pos (by decide)
    · intro _ h
      exfalso
      rw [postEvent_result, if_pos (by decide)] at h
      simp at h
  · have hnl : name = "fatal" := by rw [← hname]; decide
    subst hnl
    refine ⟨rfl, rfl, rfl, fun _ => Or.inr rfl, ?_, ?_⟩
    · intro _
      rw [postEvent_result]
      exact if_pos (by decide)
    · intro _ h
      exfalso
      rw [postEvent_result, if_pos (by decide)] at h
      simp at h
  · have hnl : name = "success" := by rw [← hname]; decide
    subst hnl
    refine ⟨rfl, rfl, rfl, ?_, ?_, fun _ _ => rfl⟩
    · intro h
      rw [postEvent_error, if_neg (by decide)] at h
      simp at h
    · rintro (h | h) <;> (rw [postEvent_status] at h; exact absurd h (by decide))

/-- Witness for the amended C7 theorem at the error status. -/
theorem event_fields_amended_witness :
    (shoutEvent "B" "7" "h0" 9).error = none ∧
    (shoutEvent "B" "7" "h0" 9).result = none ∧
    (shoutEvent "B" "7" "h0" 9).status = "a-new" ∧
    ((postEvent "B" "7" "c-error" "error" (some "m") none 9).error.isSome →
      (postEvent "B" "7" "c-error" "error" (some "m") none 9).status
          = "c-error" ∨
      (postEvent "B" "7" "c-error" "error" (some "m") none 9).status
          = "d-fatal") ∧
    ((postEvent "B" "7" "c-error" "error" (some "m") none 9).status
          = "c-error" ∨
      (postEvent "B" "7" "c-error" "error" (some "m") none 9).status
          = "d-fatal" →
      (postEvent "B" "7" "c-error" "error" (some "m") none 9).result = none) ∧
    (("error" ≠ "success" → (some "m" : Option String) = none) →
      (postEvent "B" "7" "c-error" "error" (some "m") none 9).result.isSome →
      (postEvent "B" "7" "c-error" "error" (some "m") none 9).status
        = "e-success") :=
  event_fields_amended "B" "7" "h0" "error" (some "m") none 9 "c-error"
    (by decide)

/-! Claim C8. -/

/-- C8: the prefix-character encoding of the statuses is order-isomorphic to
the priority-ordered enumeration NEW, SHOUTING, ERROR, FATAL, SUCCESS: a
status has the higher priority exactly when its encoded string is the
lexicographically greater one, so a descending sort on the encoded string
selects the highest-priority event; moreover the encoding of each status is
the STATUSES entry at its priority index. -/
theorem status_encoding_order_iso :
    ∀ s1 s2 : SpecStatus,
      (s1.priority < s2.priority ↔ strLt s1.encode s2.encode) ∧
      (s1.priority ≤ s2.priority ↔ ¬ strLt s2.encode s1.encode) ∧
      STATUSES[s1.priority]? = some s1.encode := by
  decide

/-! Claim C9. -/

/-- C9: new_random_id at the default length returns a string of exactly 43
characters, each drawn from the 62-character alphabet ID_CHARS, and the id
space satisfies 62 ^ 43 > 2 ^ 256, whatever the random source returns. -/
theorem new_random_id_spec (rand : Nat → Nat) :
    (new_random_id rand RANDOM_ID_LEN).length = 43 ∧
    (∀ c ∈ (new_random_id rand RANDOM_ID_LEN).data, c ∈ ID_CHARS) ∧
    ID_CHARS.length = 62 ∧
    2 ^ 256 < ID_CHARS.length ^ RANDOM_ID_LEN := by
  refine ⟨?_, ?_, by decide, by decide⟩
  · simp [new_random_id, String.length, RANDOM_ID_LEN]
  · intro c hc
    simp only [new_random_id, List.mem_map, List.mem_range] at hc
    obtain ⟨i, -, rfl⟩ := hc
    have hlt : rand i % ID_CHARS.length < ID_CHARS.length :=
      Nat.mod_lt _ (by decide)
    rw [List.getD_eq_getElem?_getD, List.getElem?_eq_getElem hlt]
    simp [List.getElem_mem]

/-- Witness for the C9 theorem at the identity random source. -/
theorem new_random_id_spec_witness :
    (new_random_id (fun i => i) RANDOM_ID_LEN).length = 43 ∧
    'a' ∈ ID_CHARS :=
  ⟨(new_random_id_spec (fun i => i)).1,
    (new_random_id_spec (fun i => i)).2.1 'a' (by decide)⟩

/-! Claim C10. -/

lemma append_dash_inj : ∀ (a c b d : List Char), '-' ∉ a → '-' ∉ c →
    a ++ '-' :: b = c ++ '-' :: d → a = c ∧ b = d := by
  intro a
  induction a with
  | nil =>
      intro c b d _ hc h
      cases c with
      | nil =>
          simp only [List.nil_append, List.cons.injEq] at h
          exact ⟨rfl, h.2⟩
      | cons x xs =>
          simp only [List.nil_append, List.cons_append, List.cons.injEq] at h
          exact absurd (h.1 ▸ List.mem_cons_self x xs) hc
  | cons y ys ih =>
      intro c b d ha hc h
      cases c with
      | nil =>
          simp only [List.cons_append, List.nil_append, List.cons.injEq] at h
          exact absurd (h.1 ▸ List.mem_cons_self y ys) ha
      | cons x xs =>
          simp only [List.cons_append, List.cons.injEq] at h
          obtain ⟨rfl, htail⟩ := h
          have ha2 : '-' ∉ ys := fun hm => ha (List.mem_cons_of_mem _ hm)
          have hc2 : '-' ∉ xs := fun hm => hc (List.mem_cons_of_mem _ hm)
          obtain ⟨h1, h2⟩ := ih xs b d ha2 hc2 htail
          exact ⟨by rw [h1], h2⟩

/-- C10: combine_ids is injective on pairs whose browser id is drawn from
the dash-free alphabet ID_CHARS and whose shout id contains no dash: equal
combined keys force equal browser ids and equal shout ids, so log entries
of distinct jobs never alias. -/
theorem combine_ids_injective (b1 s1 b2 s2 : String)
    (hb1 : ∀ c ∈ b1.data, c ∈ ID_CHARS) (hb2 : ∀ c ∈ b2.data, c ∈ ID_CHARS)
    (hs1 : ('-' : Char) ∉ s1.data) (hs2 : ('-' : Char) ∉ s2.data)
    (heq : combine_ids b1 s1 = combine_ids b2 s2) :
    b1 = b2 ∧ s1 = s2 := by
  have hd : b1.data ++ '-' :: s1.data = b2.data ++ '-' :: s2.data := by
    have h0 := congrArg String.data heq
    simpa [combine_ids, String.data_append] using h0
  have hnb1 : ('-' : Char) ∉ b1.data := fun h => by
    have := hb1 '-' h; revert this; decide
  have hnb2 : ('-' : Char) ∉ b2.data := fun h => by
    have := hb2 '-' h; revert this; decide
  obtain ⟨h1, h2⟩ := append_dash_inj b1.data b2.data s1.data s2.data hnb1 hnb2 hd
  exact ⟨String.ext h1, String.ext h2⟩

/-- Witness for the C10 theorem at concrete ids. -/
theorem combine_ids_injective_witness : ("ab" : String) = "ab" ∧
    ("7" : String) = "7" :=
  combine_ids_injective "ab" "7" "ab" "7" (by decide) (by decide) (by decide)
    (by decide) rfl

end Shout
